import Mathlib

/-!
Verification of the composite cancellation primitive (`Subscription.ts`) and the
finite-sequence producer (`observable/fromArray.ts`).

The embedding models the mutable object graph as a heap: a total map from node
identifiers to node records, together with an allocation counter.  JavaScript
object identity becomes identity of node ids.  A teardown callback
(`_unsubscribe`) is modelled by the small language `Teardown`: it can return
normally, throw an error, or re-entrantly call `unsubscribe` on some node (the
behaviours the source exercises).  Errors form the nested inductive `Err`:
`Err.unsub` models `UnsubscriptionError` (which carries a list of errors),
`Err.basic` models every other thrown value.  Recursion through the child graph
is paid for with explicit fuel; running out of fuel yields `none` (the source
has unbounded recursion on cyclic graphs, which the spec flags as an open
question).
-/

abbrev NodeId := Nat

/-- Errors thrown by teardowns and by `unsubscribe`.  `unsub es` models
`UnsubscriptionError` with its `errors` array; `basic n` models any other
thrown value, tagged by a number. -/
inductive Err where
  | basic : Nat → Err
  | unsub : List Err → Err

/-- Behaviour of an `_unsubscribe` callback: return normally, throw an error,
or re-entrantly invoke `unsubscribe` on a node (propagating whatever that call
throws, as a plain JavaScript call would). -/
inductive Teardown where
  | ret : Teardown
  | throws : Err → Teardown
  | callUnsub : NodeId → Teardown

/-- State of one `Subscription` object: the `isUnsubscribed` flag, the
`_unsubscribe` property (absent when the constructor got no argument), and the
`_subscriptions` property (`none` models the `null`/undefined array). -/
structure Node where
  isUnsubscribed : Bool
  unsub : Option Teardown
  subs : Option (List NodeId)

/-- The heap of `Subscription` objects: a total map from ids to nodes plus the
next fresh id.  Slots at or above `next` are unallocated. -/
structure Heap where
  nodes : NodeId → Node
  next : NodeId

/-- Overwrite one slot of the heap. -/
def Heap.set (h : Heap) (i : NodeId) (m : Node) : Heap :=
  { h with nodes := fun j => if j = i then m else h.nodes j }

/-- Allocate a fresh node (models `new Subscription(...)`). -/
def Heap.alloc (h : Heap) (m : Node) : Heap :=
  { nodes := (h.set h.next m).nodes, next := h.next + 1 }

/-- The id of the static `Subscription.EMPTY` sentinel. -/
def EMPTY : NodeId := 0

theorem Heap.set_nodes_same (h : Heap) (i : NodeId) (m : Node) :
    ((h.set i m).nodes i) = m := by
  simp [Heap.set]

theorem Heap.set_nodes_ne (h : Heap) (i j : NodeId) (m : Node) (hne : j ≠ i) :
    ((h.set i m).nodes j) = h.nodes j := by
  simp [Heap.set, hne]

/-- The state change `unsubscribe` performs on its target before invoking the
teardown: `this.isUnsubscribed = true` together with
`this._subscriptions = null` (the source keeps `this._unsubscribe` in place). -/
def detach (h : Heap) (i : NodeId) : Heap :=
  h.set i { h.nodes i with isUnsubscribed := true, subs := none }

/-- Invocation of the optional `_unsubscribe` callback via
`tryCatch(_unsubscribe).call(this)`: result is the heap after the call and the
error it threw, if any. `recur` is the `unsubscribe` entry point available to a
re-entrant callback. -/
def ownStep (recur : NodeId → Heap → Option (Heap × Option Err))
    (u : Option Teardown) (h : Heap) : Option (Heap × Option Err) :=
  match u with
  | none => some (h, none)
  | some .ret => some (h, none)
  | some (.throws e) => some (h, some e)
  | some (.callUnsub t) => recur t h

/-- The `while (++index < len)` loop of `unsubscribe`: call `sub.unsubscribe()`
on every detached child in order, accumulating `hasErrors` and the flattened
`errors` list.  A child error that is an `UnsubscriptionError` is flattened one
level (`errors.concat(err.errors)`); any other error is pushed whole.  The loop
never skips a later sibling because an earlier one threw.  (Every element the
source ever pushes into `_subscriptions` is a `Subscription` object, so the
`isObject(sub)` test is always true here.) -/
def unsubChildrenAux (recur : NodeId → Heap → Option (Heap × Option Err)) :
    List NodeId → Heap → Bool → List Err → Option (Heap × Bool × List Err)
  | [], h, hasE, es => some (h, hasE, es)
  | c :: rest, h, hasE, es =>
    match recur c h with
    | none => none
    | some (h', none) => unsubChildrenAux recur rest h' hasE es
    | some (h', some e) =>
      let es' := match e with
        | .unsub inner => es ++ inner
        | _ => es ++ [e]
      unsubChildrenAux recur rest h' true es'

/-- The `isArray(_subscriptions)` dispatch in front of the child loop. -/
def childStep (recur : NodeId → Heap → Option (Heap × Option Err))
    (s : Option (List NodeId)) (h : Heap) (hasE : Bool) (es : List Err) :
    Option (Heap × Bool × List Err) :=
  match s with
  | none => some (h, hasE, es)
  | some cs => unsubChildrenAux recur cs h hasE es

/-- One unfolding of `Subscription.unsubscribe`, parameterized by the function
used for nested `unsubscribe` calls. -/
def unsubscribeBody (recur : NodeId → Heap → Option (Heap × Option Err))
    (i : NodeId) (h : Heap) : Option (Heap × Option Err) :=
  let n := h.nodes i
  if n.isUnsubscribed then some (h, none)
  else
    (ownStep recur n.unsub (detach h i)).bind (fun p =>
      (childStep recur n.subs p.1 p.2.isSome p.2.toList).map
        (fun r => (r.1, if r.2.1 then some (Err.unsub r.2.2) else none)))

/-- `Subscription.unsubscribe`, with fuel bounding the recursion depth.
Returns the final heap and the thrown `UnsubscriptionError`, if any; `none`
means the fuel ran out. -/
def unsubscribe : Nat → NodeId → Heap → Option (Heap × Option Err)
  | 0, _, _ => none
  | fuel + 1, i, h => unsubscribeBody (unsubscribe fuel) i h

/-- Truth values `add` distinguishes at runtime: `vnull` is `null`/`undefined`;
`node i` is a `Subscription` object; `func td` is a bare callback with body
`td`; `prim t` is any other primitive value, with its truthiness `t` (for
example `0`, the empty string and `false` are falsy primitives, other numbers
and strings are truthy). -/
inductive JSVal where
  | vnull : JSVal
  | node : NodeId → JSVal
  | func : Teardown → JSVal
  | prim : Bool → JSVal

/-- JavaScript truthiness of an `add` argument (objects and functions are
always truthy). -/
def JSVal.truthy : JSVal → Bool
  | .vnull => false
  | .node _ => true
  | .func _ => true
  | .prim t => t

/-- Outcomes `add` can throw: the `new Error('Unrecognized subscription ...')`
of the `default` switch case, or an error propagated out of the synchronous
`sub.unsubscribe()` call made when `this` is already unsubscribed. -/
inductive AddError where
  | unrecognized : AddError
  | fromUnsub : Err → AddError

/-- `Subscription.add`.  Mirrors the source: the combined falsy / `=== this` /
`=== EMPTY` early return; the `switch (typeof subscription)` with fallthrough
from `'function'` (which wraps the callback in a fresh `Subscription`) into
`'object'`; the inert break when the argument is already unsubscribed; the
synchronous `sub.unsubscribe()` when `this` is unsubscribed; the push
otherwise; and the thrown `Error` in the `default` case.  (Every node of the
model has an `unsubscribe` method, so the `typeof sub.unsubscribe !==
'function'` test is always false.) -/
def add (fuel : Nat) (self : NodeId) (arg : JSVal) (h : Heap) :
    Option (Heap × Option AddError) :=
  if !arg.truthy then some (h, none)
  else
    match arg with
    | .vnull => some (h, none)
    | .node i =>
      if i = self ∨ i = EMPTY then some (h, none)
      else if (h.nodes i).isUnsubscribed then some (h, none)
      else if (h.nodes self).isUnsubscribed then
        (unsubscribe fuel i h).map (fun r => (r.1, r.2.map AddError.fromUnsub))
      else
        some (h.set self
          { h.nodes self with subs := some ((h.nodes self).subs.getD [] ++ [i]) },
          none)
    | .func td =>
      let id := h.next
      let h1 := h.alloc { isUnsubscribed := false, unsub := some td, subs := none }
      if (h.nodes self).isUnsubscribed then
        (unsubscribe fuel id h1).map (fun r => (r.1, r.2.map AddError.fromUnsub))
      else
        some (h1.set self
          { h.nodes self with subs := some ((h.nodes self).subs.getD [] ++ [id]) },
          none)
    | .prim _ => some (h, some .unrecognized)

/-- `Subscription.remove`.  Mirrors the source: the `== null` / `=== this` /
`=== EMPTY` early return; the `if (subscriptions)` null test; and
`indexOf`/`splice`, which deletes exactly the first occurrence compared by
identity (membership of the id in the list is exactly `indexOf !== -1`).  A
function or non-null primitive argument passes the guard but is never an
element of the children array, so it leaves the heap unchanged. -/
def remove (self : NodeId) (arg : JSVal) (h : Heap) : Heap :=
  match arg with
  | .vnull => h
  | .node i =>
    if i = self ∨ i = EMPTY then h
    else
      match (h.nodes self).subs with
      | none => h
      | some l =>
        if i ∈ l then h.set self { h.nodes self with subs := some (l.erase i) }
        else h
  | .func _ => h
  | .prim _ => h

/-- Predicate used by the flattening claims: is an error an aggregate
(`UnsubscriptionError`)? -/
def Err.isAgg : Err → Bool
  | .unsub _ => true
  | .basic _ => false

/-- An error is flat when, if it is an aggregate, none of its entries is
itself an aggregate. -/
def Err.flat : Err → Bool
  | .unsub es => es.all (fun e => !e.isAgg)
  | .basic _ => true


/-- Heap evolution produced by `unsubscribe`: every slot is either untouched,
or flips from not-unsubscribed to unsubscribed with its children cleared and
its teardown reference kept (the only write `unsubscribe` performs). -/
def StepOK (h h' : Heap) : Prop := ∀ j,
  h'.nodes j = h.nodes j ∨
  ((h.nodes j).isUnsubscribed = false ∧ (h'.nodes j).isUnsubscribed = true ∧
   (h'.nodes j).subs = none ∧ (h'.nodes j).unsub = (h.nodes j).unsub)

theorem StepOK.refl (h : Heap) : StepOK h h := fun _ => Or.inl (Eq.refl _)

theorem StepOK.trans {h1 h2 h3 : Heap} (a : StepOK h1 h2) (b : StepOK h2 h3) :
    StepOK h1 h3 := by
  intro j
  rcases b j with hb | hb
  · rw [hb]; exact a j
  · rcases a j with ha | ha
    · rw [ha] at hb; exact Or.inr hb
    · exact Or.inr ⟨ha.1, hb.2.1, hb.2.2.1, hb.2.2.2.trans ha.2.2.2⟩

/-- A node already unsubscribed before an `unsubscribe`-shaped step is left
completely untouched by it. -/
theorem StepOK.frozen {h h' : Heap} (s : StepOK h h') {j : NodeId}
    (hj : (h.nodes j).isUnsubscribed = true) : h'.nodes j = h.nodes j := by
  rcases s j with hs | hs
  · exact hs
  · rw [hj] at hs; exact absurd hs.1 (by simp)

/-- The `isUnsubscribed` flag is monotone along `unsubscribe`-shaped steps. -/
theorem StepOK.mono {h h' : Heap} (s : StepOK h h') {j : NodeId}
    (hj : (h.nodes j).isUnsubscribed = true) :
    (h'.nodes j).isUnsubscribed = true := by
  rw [s.frozen hj]; exact hj

theorem detach_stepOK {h : Heap} {i : NodeId}
    (hflag : (h.nodes i).isUnsubscribed = false) : StepOK h (detach h i) := by
  intro j
  by_cases hji : j = i
  · subst hji
    refine Or.inr ⟨hflag, ?_, ?_, ?_⟩ <;> simp [detach, Heap.set]
  · exact Or.inl (by simp [detach, Heap.set, hji])

/-- A recursion entry point that always produces `unsubscribe`-shaped steps. -/
def PreservesStep (recur : NodeId → Heap → Option (Heap × Option Err)) : Prop :=
  ∀ c h h' e, recur c h = some (h', e) → StepOK h h'

theorem ownStep_stepOK {recur} (hrec : PreservesStep recur)
    (u : Option Teardown) {h h' : Heap} {e : Option Err}
    (H : ownStep recur u h = some (h', e)) : StepOK h h' := by
  match u with
  | none => simp [ownStep] at H; rw [← H.1]; exact StepOK.refl h
  | some .ret => simp [ownStep] at H; rw [← H.1]; exact StepOK.refl h
  | some (.throws e0) => simp [ownStep] at H; rw [← H.1]; exact StepOK.refl h
  | some (.callUnsub t) => exact hrec t h h' e H

theorem unsubChildrenAux_stepOK {recur} (hrec : PreservesStep recur)
    (cs : List NodeId) : ∀ (h : Heap) (b : Bool) (es : List Err) h' b' es',
    unsubChildrenAux recur cs h b es = some (h', b', es') → StepOK h h' := by
  induction cs with
  | nil =>
    intro h b es h' b' es' H
    simp [unsubChildrenAux] at H
    rw [← H.1]; exact StepOK.refl h
  | cons c rest ih =>
    intro h b es h' b' es' H
    simp only [unsubChildrenAux] at H
    cases hc : recur c h with
    | none => rw [hc] at H; simp at H
    | some r =>
      obtain ⟨h1, e1⟩ := r
      rw [hc] at H
      have step1 : StepOK h h1 := hrec c h h1 e1 hc
      cases e1 with
      | none => exact step1.trans (ih h1 b es h' b' es' H)
      | some e => exact step1.trans (ih h1 true _ h' b' es' H)

theorem childStep_stepOK {recur} (hrec : PreservesStep recur)
    (s : Option (List NodeId)) {h : Heap} {b : Bool} {es : List Err}
    {h' : Heap} {b' : Bool} {es' : List Err}
    (H : childStep recur s h b es = some (h', b', es')) : StepOK h h' := by
  match s with
  | none =>
    simp [childStep] at H
    rw [← H.1]; exact StepOK.refl h
  | some cs => exact unsubChildrenAux_stepOK hrec cs h b es h' b' es' H

theorem unsubscribeBody_stepOK {recur} (hrec : PreservesStep recur)
    (i : NodeId) {h h' : Heap} {e : Option Err}
    (H : unsubscribeBody recur i h = some (h', e)) : StepOK h h' := by
  by_cases hflag : (h.nodes i).isUnsubscribed = true
  · simp [unsubscribeBody, hflag] at H
    rw [← H.1]; exact StepOK.refl h
  · have hflag' : (h.nodes i).isUnsubscribed = false := by simpa using hflag
    simp only [unsubscribeBody, hflag', Bool.false_eq_true, if_false] at H
    obtain ⟨⟨h2, ownE⟩, hown, H2⟩ := Option.bind_eq_some.mp H
    obtain ⟨⟨h3, b3, es3⟩, hkids, H3⟩ := Option.map_eq_some'.mp H2
    have hh : h' = h3 := (congrArg Prod.fst H3).symm
    subst hh
    exact ((detach_stepOK hflag').trans (ownStep_stepOK hrec _ hown)).trans
      (childStep_stepOK hrec _ hkids)

theorem unsubscribe_stepOK : ∀ fuel, PreservesStep (unsubscribe fuel) := by
  intro fuel
  induction fuel with
  | zero => intro c h h' e H; simp [unsubscribe] at H
  | succ f ih =>
    intro c h h' e H
    exact unsubscribeBody_stepOK ih c H

/-- Calling `unsubscribe` on an already-unsubscribed node is a synchronous
no-op: the heap is untouched and nothing is thrown (the idempotence guard). -/
theorem unsubscribe_noop (f : Nat) (i : NodeId) (h : Heap)
    (hflag : (h.nodes i).isUnsubscribed = true) :
    unsubscribe (f + 1) i h = some (h, none) := by
  simp [unsubscribe, unsubscribeBody, hflag]

/-- A successful `unsubscribe` leaves its target marked unsubscribed. -/
theorem unsubscribe_sets_flag : ∀ fuel i h h' e,
    unsubscribe fuel i h = some (h', e) →
    (h'.nodes i).isUnsubscribed = true := by
  intro fuel i h h' e H
  cases fuel with
  | zero => simp [unsubscribe] at H
  | succ f =>
    by_cases hflag : (h.nodes i).isUnsubscribed = true
    · rw [unsubscribe_noop f i h hflag] at H
      simp only [Option.some.injEq, Prod.mk.injEq] at H
      rw [← H.1]; exact hflag
    · have hflag' : (h.nodes i).isUnsubscribed = false := by simpa using hflag
      simp only [unsubscribe, unsubscribeBody, hflag', Bool.false_eq_true,
        if_false] at H
      obtain ⟨⟨h2, ownE⟩, hown, H2⟩ := Option.bind_eq_some.mp H
      obtain ⟨⟨h3, b3, es3⟩, hkids, H3⟩ := Option.map_eq_some'.mp H2
      have hh : h' = h3 := (congrArg Prod.fst H3).symm
      subst hh
      have d1 : ((detach h i).nodes i).isUnsubscribed = true := by
        simp [detach, Heap.set]
      exact ((ownStep_stepOK (unsubscribe_stepOK f) _ hown).trans
        (childStep_stepOK (unsubscribe_stepOK f) _ hkids)).mono d1

/-- Sequential record of one `cancel` pass over a child list: every child's
`unsubscribe` is invoked exactly once, in insertion order, regardless of
earlier failures, and each child's reported failure (if any) is recorded. -/
def childResults (recur : NodeId → Heap → Option (Heap × Option Err)) :
    List NodeId → Heap → Option (Heap × List (Option Err))
  | [], h => some (h, [])
  | c :: rest, h =>
    match recur c h with
    | none => none
    | some (h', e) => (childResults recur rest h').map (fun r => (r.1, e :: r.2))

/-- Contribution of one child's reported failure to the parent's `errors`
list: nothing on success, the inner failures of an `UnsubscriptionError`
(flattened one level), or the failure itself. -/
def flattenChildErr : Option Err → List Err
  | none => []
  | some (.unsub inner) => inner
  | some e => [e]

/-- The child loop of `unsubscribe` equals the sequential per-child record:
the accumulated `hasErrors` flag is the disjunction of the individual child
failures, and the accumulated `errors` list is the concatenation of each
child's flattened contribution, in child order. -/
theorem unsubChildrenAux_eq_childResults (recur) (cs : List NodeId) :
    ∀ (h : Heap) (b : Bool) (es : List Err),
    unsubChildrenAux recur cs h b es =
      (childResults recur cs h).map
        (fun r => (r.1, b || r.2.any Option.isSome,
          es ++ (r.2.map flattenChildErr).flatten)) := by
  induction cs with
  | nil => intro h b es; simp [unsubChildrenAux, childResults]
  | cons c rest ih =>
    intro h b es
    simp only [unsubChildrenAux, childResults]
    cases hc : recur c h with
    | none => simp
    | some r =>
      obtain ⟨h1, e1⟩ := r
      cases e1 with
      | none =>
        dsimp only
        rw [ih h1 b es]
        cases hrest : childResults recur rest h1 with
        | none => simp
        | some r2 => simp [flattenChildErr]
      | some e =>
        cases e with
        | unsub inner =>
          dsimp only
          rw [ih h1 true (es ++ inner)]
          cases hrest : childResults recur rest h1 with
          | none => simp
          | some r2 => simp [flattenChildErr]
        | basic m =>
          dsimp only
          rw [ih h1 true (es ++ [Err.basic m])]
          cases hrest : childResults recur rest h1 with
          | none => simp
          | some r2 => simp [flattenChildErr]

/-- One successful `unsubscribe` on a node with children `cs` decomposes into
the own-teardown step followed by the sequential per-child record
`childResults`, with the reported failure assembled from the own failure
(pushed as-is, first) and each child's flattened contribution, in order. -/
theorem unsubscribe_unfold_children (fuel : Nat) (n : NodeId) (h : Heap)
    (cs : List NodeId)
    (hflag : (h.nodes n).isUnsubscribed = false)
    (hsubs : (h.nodes n).subs = some cs) :
    unsubscribe (fuel + 1) n h =
      (ownStep (unsubscribe fuel) (h.nodes n).unsub (detach h n)).bind (fun p =>
        (childResults (unsubscribe fuel) cs p.1).map (fun r =>
          (r.1, if p.2.isSome || r.2.any Option.isSome
                then some (Err.unsub (p.2.toList ++ (r.2.map flattenChildErr).flatten))
                else none))) := by
  simp only [unsubscribe, unsubscribeBody, hflag, Bool.false_eq_true, if_false]
  rw [hsubs]
  simp only [childStep]
  congr 1
  funext p
  rw [unsubChildrenAux_eq_childResults]
  cases hk : childResults (unsubscribe fuel) cs p.1 with
  | none => simp
  | some r => simp

/-- C1: for a node with children `cs`, one `unsubscribe` call invokes every
child's `unsubscribe` exactly once, in insertion order, even when some child
fails (`childResults` records one invocation per child unconditionally), and
the reported failure is an `UnsubscriptionError` whose list is the node's own
teardown failure (if any) first, followed by each child's reported failures
flattened, in child order. -/
theorem C1_cancel_children_exactly_once (fuel : Nat) (n : NodeId) (h : Heap)
    (cs : List NodeId)
    (hflag : (h.nodes n).isUnsubscribed = false)
    (hsubs : (h.nodes n).subs = some cs) :
    unsubscribe (fuel + 1) n h =
      (ownStep (unsubscribe fuel) (h.nodes n).unsub (detach h n)).bind (fun p =>
        (childResults (unsubscribe fuel) cs p.1).map (fun r =>
          (r.1, if p.2.isSome || r.2.any Option.isSome
                then some (Err.unsub (p.2.toList ++ (r.2.map flattenChildErr).flatten))
                else none))) :=
  unsubscribe_unfold_children fuel n h cs hflag hsubs

/-- Heap for the C1 witness: node 1 has a throwing teardown and children 2
(whose teardown throws) and 3 (whose teardown succeeds). -/
def w1Heap : Heap :=
  { nodes := fun j =>
      if j = 1 then { isUnsubscribed := false, unsub := some (.throws (.basic 7)), subs := some [2, 3] }
      else if j = 2 then { isUnsubscribed := false, unsub := some (.throws (.basic 8)), subs := none }
      else if j = 3 then { isUnsubscribed := false, unsub := some .ret, subs := none }
      else { isUnsubscribed := true, unsub := none, subs := none },
    next := 4 }

/-- C1 witness: on `w1Heap`, cancelling node 1 reports the own failure first
and then the failing child's failure, with the succeeding sibling still
cancelled. -/
theorem C1_witness :
    (unsubscribe 2 1 w1Heap).map Prod.snd
      = some (some (.unsub [.basic 7, .basic 8])) := by
  rw [C1_cancel_children_exactly_once 1 1 w1Heap [2, 3] rfl rfl]
  rfl

/-- C2: `cancel` is idempotent: after any successful `unsubscribe` the second
call is a no-op that succeeds, so the observable effect of calling twice
equals that of calling once. -/
theorem C2_cancel_idempotent (fuel f : Nat) (i : NodeId) (h h' : Heap)
    (e : Option Err) (H : unsubscribe fuel i h = some (h', e)) :
    unsubscribe (f + 1) i h' = some (h', none) :=
  unsubscribe_noop f i h' (unsubscribe_sets_flag fuel i h h' e H)

/-- Heap for the C2 witness: one live node with a succeeding teardown. -/
def w2Heap : Heap :=
  { nodes := fun j =>
      if j = 1 then { isUnsubscribed := false, unsub := some .ret, subs := none }
      else { isUnsubscribed := true, unsub := none, subs := none },
    next := 2 }

/-- C2 witness: cancelling node 1 of `w2Heap` once reaches the detached heap;
a second `unsubscribe` on that heap changes nothing and succeeds. -/
theorem C2_witness :
    unsubscribe 1 1 (detach w2Heap 1) = some (detach w2Heap 1, none) :=
  C2_cancel_idempotent 1 0 1 w2Heap (detach w2Heap 1) none rfl

/-- C4 (amended): during the first `unsubscribe`, before the teardown is
invoked the flag is set and the children list is detached — but the teardown
reference stays stored on the node — and a re-entrant `unsubscribe` of any
already-unsubscribed node is a no-op, so the teardown runs at most once.
The last conjunct exhibits the evaluation order: the teardown and the child
loop operate on `detach h n`. -/
theorem C4_detach_before_teardown (fuel : Nat) (n : NodeId) (h : Heap)
    (hflag : (h.nodes n).isUnsubscribed = false) :
    ((detach h n).nodes n).isUnsubscribed = true ∧
    ((detach h n).nodes n).subs = none ∧
    ((detach h n).nodes n).unsub = (h.nodes n).unsub ∧
    (∀ f h2, (h2.nodes n).isUnsubscribed = true →
      unsubscribe (f + 1) n h2 = some (h2, none)) ∧
    unsubscribe (fuel + 1) n h =
      (ownStep (unsubscribe fuel) (h.nodes n).unsub (detach h n)).bind (fun p =>
        (childStep (unsubscribe fuel) (h.nodes n).subs p.1 p.2.isSome p.2.toList).map
          (fun r => (r.1, if r.2.1 then some (Err.unsub r.2.2) else none))) := by
  refine ⟨by simp [detach, Heap.set], by simp [detach, Heap.set],
    by simp [detach, Heap.set], fun f h2 hf => unsubscribe_noop f n h2 hf, ?_⟩
  simp only [unsubscribe, unsubscribeBody, hflag, Bool.false_eq_true, if_false]

/-- Heap for C4: node 1's teardown re-entrantly calls `unsubscribe` on node 1
itself. -/
def c4Heap : Heap :=
  { nodes := fun j =>
      if j = 1 then { isUnsubscribed := false, unsub := some (.callUnsub 1), subs := none }
      else { isUnsubscribed := true, unsub := none, subs := none },
    next := 2 }

/-- C4 counterexample: after cancelling node 1 the teardown reference is still
stored on the node (`_unsubscribe` is never nulled by the source), refuting
the claim that the teardown reference is detached from the node; the
re-entrant self-cancel inside the teardown was a harmless no-op. -/
theorem C4_counterexample :
    unsubscribe 2 1 c4Heap = some (detach c4Heap 1, none) ∧
    ((detach c4Heap 1).nodes 1).unsub = some (.callUnsub 1) ∧
    some (Teardown.callUnsub 1) ≠ (none : Option Teardown) :=
  ⟨rfl, rfl, Option.some_ne_none _⟩

/-- C4 witness: the amended statement instantiated on `c4Heap`. -/
theorem C4_witness :
    ((detach c4Heap 1).nodes 1).isUnsubscribed = true ∧
    ((detach c4Heap 1).nodes 1).subs = none ∧
    ((detach c4Heap 1).nodes 1).unsub = (c4Heap.nodes 1).unsub :=
  let H := C4_detach_before_teardown 1 1 c4Heap rfl
  ⟨H.1, H.2.1, H.2.2.1⟩

/-- C8: `add(null)`, `add(this)` and `add(EMPTY)` are complete no-ops: the
heap — in particular the children list of every node — is returned unchanged
and nothing is cancelled and nothing is thrown. -/
theorem C8_add_self_null_empty_noop (fuel : Nat) (n : NodeId) (h : Heap) :
    add fuel n JSVal.vnull h = some (h, none) ∧
    add fuel n (JSVal.node n) h = some (h, none) ∧
    add fuel n (JSVal.node EMPTY) h = some (h, none) := by
  refine ⟨rfl, ?_, ?_⟩ <;> simp [add, JSVal.truthy]

theorem Heap.alloc_nodes_ne (h : Heap) (m : Node) {j : NodeId}
    (hj : j ≠ h.next) : (h.alloc m).nodes j = h.nodes j :=
  Heap.set_nodes_ne h h.next j m hj

theorem Heap.alloc_nodes_next (h : Heap) (m : Node) :
    (h.alloc m).nodes h.next = m :=
  Heap.set_nodes_same h h.next m

/-- C5: adding a non-cancelled node `x` (distinct from `this` and `EMPTY`) to
an already-cancelled parent `p` makes `add` behave exactly as a synchronous
`x.unsubscribe()` call (invoked once, before `add` returns), after which `x`
is marked unsubscribed and `p`'s children list is untouched — `x` is never
appended.  A bare callable is wrapped in a fresh node which is likewise
cancelled synchronously, again without touching `p`'s children. -/
theorem C5_add_to_cancelled_parent (fuel : Nat) (p x : NodeId) (td : Teardown)
    (h : Heap)
    (hp : (h.nodes p).isUnsubscribed = true)
    (hx : (h.nodes x).isUnsubscribed = false)
    (hxp : x ≠ p) (hxE : x ≠ EMPTY)
    (hfresh : (h.nodes h.next).isUnsubscribed = false) :
    (add fuel p (.node x) h =
      (unsubscribe fuel x h).map (fun r => (r.1, r.2.map AddError.fromUnsub))) ∧
    (∀ h' r, unsubscribe fuel x h = some (h', r) →
      (h'.nodes x).isUnsubscribed = true ∧ (h'.nodes p).subs = (h.nodes p).subs) ∧
    (add fuel p (.func td) h =
      (unsubscribe fuel h.next
        (h.alloc { isUnsubscribed := false, unsub := some td, subs := none })).map
        (fun r => (r.1, r.2.map AddError.fromUnsub))) ∧
    (∀ h' r, unsubscribe fuel h.next
        (h.alloc { isUnsubscribed := false, unsub := some td, subs := none })
          = some (h', r) →
      (h'.nodes p).subs = (h.nodes p).subs) := by
  have hpn : p ≠ h.next := fun hcon => by rw [hcon, hfresh] at hp; exact absurd hp (by simp)
  refine ⟨?_, ?_, ?_, ?_⟩
  · simp [add, JSVal.truthy, hxp, hxE, hx, hp]
  · intro h' r H
    exact ⟨unsubscribe_sets_flag fuel x h h' r H,
      congrArg Node.subs ((unsubscribe_stepOK fuel x h h' r H).frozen hp)⟩
  · simp [add, JSVal.truthy, hp]
  · intro h' r H
    have step := unsubscribe_stepOK fuel h.next _ h' r H
    have hal : ((h.alloc { isUnsubscribed := false, unsub := some td, subs := none }).nodes p)
        = h.nodes p := Heap.alloc_nodes_ne h _ hpn
    have := step.frozen (j := p) (by rw [hal]; exact hp)
    rw [hal] at this
    exact congrArg Node.subs this

/-- Heap for the C5 witness: parent 1 is already cancelled, node 2 is a live
candidate child, slot 3 is the fresh allocation slot. -/
def w5Heap : Heap :=
  { nodes := fun j =>
      if j = 1 then { isUnsubscribed := true, unsub := none, subs := none }
      else if j = 2 then { isUnsubscribed := false, unsub := some .ret, subs := none }
      else if j = 3 then { isUnsubscribed := false, unsub := none, subs := none }
      else { isUnsubscribed := true, unsub := none, subs := none },
    next := 3 }

/-- C5 witness: adding live node 2 to cancelled parent 1 is exactly a
synchronous `unsubscribe` of node 2. -/
theorem C5_witness :
    add 1 1 (.node 2) w5Heap =
      (unsubscribe 1 2 w5Heap).map (fun r => (r.1, r.2.map AddError.fromUnsub)) :=
  (C5_add_to_cancelled_parent 1 1 2 .ret w5Heap rfl rfl (by decide) (by decide) rfl).1

/-- Node invariant of the spec: once `isUnsubscribed` is true, the children
list is detached (`_subscriptions` is null). -/
def HeapInv (h : Heap) : Prop :=
  ∀ j, (h.nodes j).isUnsubscribed = true → (h.nodes j).subs = none

/-- Monotonicity of the `isUnsubscribed` flag between two heaps: no node ever
reverts from cancelled to active. -/
def Mono (h h' : Heap) : Prop :=
  ∀ j, (h.nodes j).isUnsubscribed = true → (h'.nodes j).isUnsubscribed = true

theorem StepOK.toMono {h h' : Heap} (s : StepOK h h') : Mono h h' :=
  fun _ hj => s.mono hj

theorem StepOK.toInv {h h' : Heap} (s : StepOK h h') (hi : HeapInv h) : HeapInv h' := by
  intro j hj
  rcases s j with hs | hs
  · rw [hs] at hj ⊢; exact hi j hj
  · exact hs.2.2.1

theorem Mono.rfl (h : Heap) : Mono h h := fun _ hj => hj

theorem Mono.comp {h1 h2 h3 : Heap} (a : Mono h1 h2) (b : Mono h2 h3) :
    Mono h1 h3 := fun j hj => b j (a j hj)



/-- `add` preserves flag monotonicity and the cancelled-implies-no-children
invariant (assuming the allocation slot is not already marked cancelled). -/
theorem add_mono_inv (fuel : Nat) (self : NodeId) (a : JSVal) (h h' : Heap)
    (r : Option AddError)
    (hfresh : (h.nodes h.next).isUnsubscribed = false)
    (H : add fuel self a h = some (h', r)) :
    Mono h h' ∧ (HeapInv h → HeapInv h') := by
  have halloc : ∀ m : Node, m.isUnsubscribed = false →
      Mono h (h.alloc m) ∧ (HeapInv h → HeapInv (h.alloc m)) := by
    intro m hm
    constructor
    · intro j hj
      by_cases hjn : j = h.next
      · rw [hjn, hfresh] at hj; exact absurd hj (by simp)
      · rw [Heap.alloc_nodes_ne h m hjn]; exact hj
    · intro hi j hj
      by_cases hjn : j = h.next
      · rw [hjn, Heap.alloc_nodes_next h m, hm] at hj; exact absurd hj (by simp)
      · rw [Heap.alloc_nodes_ne h m hjn] at hj ⊢; exact hi j hj
  have hpush : ∀ (base : Heap) (l : List NodeId),
      (h.nodes self).isUnsubscribed = false →
      Mono h base → (HeapInv h → HeapInv base) →
      Mono h (base.set self { h.nodes self with subs := some l }) ∧
        (HeapInv h → HeapInv (base.set self { h.nodes self with subs := some l })) := by
    intro base l hself hbm hbi
    constructor
    · intro j hj
      by_cases hjs : j = self
      · rw [hjs, hself] at hj; exact absurd hj (by simp)
      · rw [Heap.set_nodes_ne base self j _ hjs]; exact hbm j hj
    · intro hi j hj
      by_cases hjs : j = self
      · rw [hjs, Heap.set_nodes_same] at hj
        dsimp only at hj
        rw [hself] at hj; exact absurd hj (by simp)
      · rw [Heap.set_nodes_ne base self j _ hjs] at hj ⊢
        exact hbi hi j hj
  have hid : h = h' → Mono h h' ∧ (HeapInv h → HeapInv h') := by
    intro hh; subst hh; exact ⟨Mono.rfl h, id⟩
  have hmap : ∀ (i0 : NodeId) (base : Heap),
      Mono h base → (HeapInv h → HeapInv base) →
      (unsubscribe fuel i0 base).map
          (fun q => (q.1, q.2.map AddError.fromUnsub)) = some (h', r) →
      Mono h h' ∧ (HeapInv h → HeapInv h') := by
    intro i0 base hbm hbi hmapeq
    obtain ⟨⟨h1, e1⟩, hu, heq⟩ := Option.map_eq_some'.mp hmapeq
    have hh : h' = h1 := (congrArg Prod.fst heq).symm
    subst hh
    have step := unsubscribe_stepOK fuel i0 base h' e1 hu
    exact ⟨hbm.comp step.toMono, fun hi => step.toInv (hbi hi)⟩
  cases a with
  | vnull =>
    simp only [add, JSVal.truthy, Bool.not_false, if_true] at H
    exact hid (congrArg Prod.fst (Option.some.inj H))
  | prim t =>
    cases t with
    | false =>
      simp only [add, JSVal.truthy, Bool.not_false, if_true] at H
      exact hid (congrArg Prod.fst (Option.some.inj H))
    | true =>
      simp only [add, JSVal.truthy, Bool.not_true, Bool.false_eq_true, if_false] at H
      exact hid (congrArg Prod.fst (Option.some.inj H))
  | node i =>
    simp only [add, JSVal.truthy, Bool.not_true, Bool.false_eq_true, if_false] at H
    split at H
    · exact hid (congrArg Prod.fst (Option.some.inj H))
    · split at H
      · exact hid (congrArg Prod.fst (Option.some.inj H))
      · split at H
        · exact hmap i h (Mono.rfl h) id H
        · rename_i hflags
          have hself : (h.nodes self).isUnsubscribed = false := by
            simpa using hflags
          have hh : h' = h.set self
              { h.nodes self with subs := some ((h.nodes self).subs.getD [] ++ [i]) } :=
            (congrArg Prod.fst (Option.some.inj H)).symm
          subst hh
          exact hpush h _ hself (Mono.rfl h) id
  | func td =>
    simp only [add, JSVal.truthy, Bool.not_true, Bool.false_eq_true, if_false] at H
    split at H
    · exact hmap h.next (h.alloc { isUnsubscribed := false, unsub := some td, subs := none })
        (halloc { isUnsubscribed := false, unsub := some td, subs := none } rfl).1
        (halloc { isUnsubscribed := false, unsub := some td, subs := none } rfl).2 H
    · rename_i hflags
      have hself : (h.nodes self).isUnsubscribed = false := by
        simpa using hflags
      have hh : h' = (h.alloc { isUnsubscribed := false, unsub := some td, subs := none }).set
          self { h.nodes self with subs := some ((h.nodes self).subs.getD [] ++ [h.next]) } :=
        (congrArg Prod.fst (Option.some.inj H)).symm
      subst hh
      exact hpush _ _ hself
        (halloc { isUnsubscribed := false, unsub := some td, subs := none } rfl).1
        (halloc { isUnsubscribed := false, unsub := some td, subs := none } rfl).2

/-- `remove` preserves flag monotonicity and the cancelled-implies-no-children
invariant: it never touches a flag, and on a cancelled node the children list
is already null so `remove` is the identity. -/
theorem remove_mono_inv (self : NodeId) (a : JSVal) (h : Heap) :
    Mono h (remove self a h) ∧ (HeapInv h → HeapInv (remove self a h)) := by
  cases a with
  | vnull => exact ⟨Mono.rfl h, id⟩
  | func td => exact ⟨Mono.rfl h, id⟩
  | prim t => exact ⟨Mono.rfl h, id⟩
  | node i =>
    by_cases hg : i = self ∨ i = EMPTY
    · simp only [remove, hg, if_true]
      exact ⟨Mono.rfl h, id⟩
    · cases hs : (h.nodes self).subs with
      | none =>
        simp only [remove, hg, if_false, hs]
        exact ⟨Mono.rfl h, id⟩
      | some l =>
        by_cases hm : i ∈ l
        · simp only [remove, hg, if_false, hs, hm, if_true]
          constructor
          · intro j hj
            by_cases hjs : j = self
            · subst hjs
              rw [Heap.set_nodes_same]
              exact hj
            · rw [Heap.set_nodes_ne h self j _ hjs]; exact hj
          · intro hi j hj
            by_cases hjs : j = self
            · subst hjs
              rw [Heap.set_nodes_same] at hj
              dsimp only at hj
              have := hi j hj
              rw [hs] at this
              exact absurd this (by simp)
            · rw [Heap.set_nodes_ne h self j _ hjs] at hj ⊢
              exact hi j hj
        · simp only [remove, hg, if_false, hs, hm]
          exact ⟨Mono.rfl h, id⟩

/-- C6: every operation — `unsubscribe`, `add` (with a fresh allocation
slot), `remove` — preserves both invariants: the `isUnsubscribed` flag is
monotonic (no node reverts to active), and whenever a node is marked
unsubscribed its children list is detached (no operation ever stores a child
on a cancelled node). -/
theorem C6_operations_preserve_invariants :
    (∀ fuel i h h' e, unsubscribe fuel i h = some (h', e) →
      Mono h h' ∧ (HeapInv h → HeapInv h')) ∧
    (∀ fuel self a h h' r, (h.nodes h.next).isUnsubscribed = false →
      add fuel self a h = some (h', r) →
      Mono h h' ∧ (HeapInv h → HeapInv h')) ∧
    (∀ self a h, Mono h (remove self a h) ∧ (HeapInv h → HeapInv (remove self a h))) :=
  ⟨fun fuel i h h' e H =>
      ⟨(unsubscribe_stepOK fuel i h h' e H).toMono,
       fun hi => (unsubscribe_stepOK fuel i h h' e H).toInv hi⟩,
   fun fuel self a h h' r hfresh H => add_mono_inv fuel self a h h' r hfresh H,
   fun self a h => remove_mono_inv self a h⟩

/-- C6 witness: the three parts instantiated on concrete heaps — a cancel on
`w2Heap`, an add of live node 2 to cancelled parent 1 on `w5Heap`, and a
remove on `w5Heap`. -/
theorem C6_witness :
    (Mono w2Heap (detach w2Heap 1) ∧ (HeapInv w2Heap → HeapInv (detach w2Heap 1))) ∧
    (Mono w5Heap (detach w5Heap 2) ∧ (HeapInv w5Heap → HeapInv (detach w5Heap 2))) ∧
    (Mono w5Heap (remove 1 (.node 2) w5Heap) ∧
      (HeapInv w5Heap → HeapInv (remove 1 (.node 2) w5Heap))) :=
  ⟨C6_operations_preserve_invariants.1 1 1 w2Heap (detach w2Heap 1) none rfl,
   C6_operations_preserve_invariants.2.1 1 1 (.node 2) w5Heap (detach w5Heap 2) none rfl rfl,
   C6_operations_preserve_invariants.2.2 1 (.node 2) w5Heap⟩

/-- Heap for C7: node 1 is already cancelled (the parent), slot 2 is fresh. -/
def c7Heap : Heap :=
  { nodes := fun j =>
      if j = 1 then { isUnsubscribed := true, unsub := none, subs := none }
      else { isUnsubscribed := false, unsub := none, subs := none },
    next := 2 }

/-- C7 counterexample: two concrete refutations of the claimed equivalence.
A falsy primitive such as `0` or `false` is neither null nor callable nor
node-like, yet `add` returns without raising (the `!subscription` guard
catches it first); and adding a throwing callable to the already-cancelled
node 1 makes `add` raise — synchronously — a propagated cancellation failure
that is not the `Unrecognized subscription` error. -/
theorem C7_counterexample :
    add 1 1 (.prim false) c7Heap = some (c7Heap, none) ∧
    (add 2 1 (.func (.throws (.basic 5))) c7Heap).map Prod.snd
      = some (some (.fromUnsub (.unsub [.basic 5]))) ∧
    AddError.fromUnsub (.unsub [.basic 5]) ≠ AddError.unrecognized :=
  ⟨rfl, rfl, fun hcon => AddError.noConfusion hcon⟩

/-- C7 (amended): `add` raises the `Unrecognized subscription` error exactly
for truthy arguments that are neither callable nor node-like (falsy primitive
inputs are no-ops, like null); for every other argument `add` never raises
that error, though it may propagate a failure from the synchronous
cancellation of an item added to an already-cancelled parent. -/
theorem C7_invalid_argument_iff (fuel : Nat) (self : NodeId) (h : Heap) :
    (add fuel self (.prim true) h = some (h, some .unrecognized)) ∧
    (∀ arg h' r, add fuel self arg h = some (h', r) →
      r = some .unrecognized → arg = .prim true) := by
  constructor
  · rfl
  · intro arg h' r H hr
    subst hr
    have hmap : ∀ (i0 : NodeId) (base : Heap),
        (unsubscribe fuel i0 base).map
            (fun q => (q.1, q.2.map AddError.fromUnsub))
          = some (h', some AddError.unrecognized) → False := by
      intro i0 base hmapeq
      obtain ⟨⟨h1, e1⟩, -, heq⟩ := Option.map_eq_some'.mp hmapeq
      have he : e1.map AddError.fromUnsub = some AddError.unrecognized :=
        congrArg Prod.snd heq
      cases e1 with
      | none => exact Option.noConfusion he
      | some e2 => simp at he
    cases arg with
    | vnull =>
      simp only [add, JSVal.truthy, Bool.not_false, if_true,
        Option.some.injEq, Prod.mk.injEq] at H
      exact absurd H.2 (by simp)
    | prim t =>
      cases t with
      | false =>
        simp only [add, JSVal.truthy, Bool.not_false, if_true,
          Option.some.injEq, Prod.mk.injEq] at H
        exact absurd H.2 (by simp)
      | true => rfl
    | node i =>
      simp only [add, JSVal.truthy, Bool.not_true, Bool.false_eq_true, if_false] at H
      exfalso
      split at H
      · simp only [Option.some.injEq, Prod.mk.injEq] at H
        exact absurd H.2 (by simp)
      · split at H
        · simp only [Option.some.injEq, Prod.mk.injEq] at H
          exact absurd H.2 (by simp)
        · split at H
          · exact hmap i h H
          · simp only [Option.some.injEq, Prod.mk.injEq] at H
            exact absurd H.2 (by simp)
    | func td =>
      simp only [add, JSVal.truthy, Bool.not_true, Bool.false_eq_true, if_false] at H
      exfalso
      split at H
      · exact hmap h.next _ H
      · simp only [Option.some.injEq, Prod.mk.injEq] at H
        exact absurd H.2 (by simp)

/-- C7 witness: the amended statement instantiated on `c7Heap`: a truthy
non-callable, non-node value raises the unrecognized-argument error, and the
converse direction applied to that very run. -/
theorem C7_witness :
    add 1 1 (.prim true) c7Heap = some (c7Heap, some .unrecognized) ∧
    JSVal.prim true = JSVal.prim true :=
  ⟨(C7_invalid_argument_iff 1 1 c7Heap).1,
   (C7_invalid_argument_iff 1 1 c7Heap).2 (.prim true) c7Heap
     (some .unrecognized) rfl rfl⟩

/-- C9: for a node `n` whose children list is `l`, `remove` of `x` (distinct
from `this` and `EMPTY`) replaces the list by `l.erase x` — which deletes
exactly the first occurrence of `x` by identity, as the decomposition in the
last conjunct makes explicit — leaving the node's flag and teardown and every
other node untouched; when `x` is absent the entire heap is returned
unchanged, and `remove` never raises (it is a total function into `Heap`). -/
theorem C9_remove_first_occurrence (h : Heap) (n x : NodeId) (l : List NodeId)
    (hxn : x ≠ n) (hxE : x ≠ EMPTY) (hl : (h.nodes n).subs = some l) :
    (((remove n (.node x) h).nodes n).subs = some (l.erase x) ∧
     ((remove n (.node x) h).nodes n).isUnsubscribed = (h.nodes n).isUnsubscribed ∧
     ((remove n (.node x) h).nodes n).unsub = (h.nodes n).unsub ∧
     (∀ j, j ≠ n → (remove n (.node x) h).nodes j = h.nodes j)) ∧
    (x ∉ l → remove n (.node x) h = h) ∧
    (x ∈ l → ∃ l1 l2, x ∉ l1 ∧ l = l1 ++ x :: l2 ∧ l.erase x = l1 ++ l2) := by
  have hg : ¬(x = n ∨ x = EMPTY) := by
    rintro (hc | hc)
    · exact hxn hc
    · exact hxE hc
  by_cases hm : x ∈ l
  · simp only [remove, hg, if_false, hl]
    rw [if_pos hm]
    refine ⟨⟨?_, ?_, ?_, ?_⟩, ?_, ?_⟩
    · rw [Heap.set_nodes_same]
    · rw [Heap.set_nodes_same]
    · rw [Heap.set_nodes_same]
    · intro j hj
      exact Heap.set_nodes_ne h n j _ hj
    · intro hcon; exact absurd hm hcon
    · intro _; exact List.exists_erase_eq hm
  · simp only [remove, hg, if_false, hl]
    rw [if_neg hm]
    have herase : l.erase x = l := List.erase_of_not_mem hm
    exact ⟨⟨by rw [herase]; exact hl, rfl, rfl, fun j _ => rfl⟩,
      fun _ => rfl, fun hcon => absurd hcon hm⟩

/-- Heap for the C9 witness: node 1 carries the children list `[2, 3, 2]`
with a duplicate. -/
def w9Heap : Heap :=
  { nodes := fun j =>
      if j = 1 then { isUnsubscribed := false, unsub := none, subs := some [2, 3, 2] }
      else { isUnsubscribed := false, unsub := some .ret, subs := none },
    next := 4 }

/-- C9 witness: removing node 2 from `[2, 3, 2]` deletes exactly the first
occurrence, leaving `[3, 2]`. -/
theorem C9_witness :
    ((remove 1 (.node 2) w9Heap).nodes 1).subs = some [3, 2] :=
  (C9_remove_first_occurrence w9Heap 1 2 [2, 3, 2]
    (by decide) (by decide) rfl).1.1

/-- Heap for the C3 counterexample: node 1's own teardown throws an
`UnsubscriptionError` (aggregate) itself. -/
def c3Heap : Heap :=
  { nodes := fun j =>
      if j = 1 then
        { isUnsubscribed := false, unsub := some (.throws (.unsub [.basic 0])), subs := none }
      else { isUnsubscribed := true, unsub := none, subs := none },
    next := 2 }

/-- C3 counterexample: when the node's own teardown throws an aggregate, the
source pushes it as-is (`errors.push(errorObject.e)` without the
`instanceof UnsubscriptionError` check used for child failures), so the
reported `UnsubscriptionError` contains a nested aggregate — refuting the
claim that entries originating from the node's own teardown are never
aggregates. -/
theorem C3_counterexample :
    unsubscribe 1 1 c3Heap = some (detach c3Heap 1, some (.unsub [.unsub [.basic 0]])) ∧
    Err.flat (.unsub [.unsub [.basic 0]]) = false ∧
    Err.isAgg (.unsub [.basic 0]) = true :=
  ⟨rfl, rfl, rfl⟩

/-- C3 (amended): flattening applies only to failures raised by child
cancellations, and only one level deep; the node's own teardown failure is
appended as-is.  Consequently, when the own failure (if any) is not an
aggregate and every child-reported aggregate is itself flat, the failure
reported by `unsubscribe` contains no nested aggregate. -/
theorem C3_flatten_one_level (fuel : Nat) (n : NodeId) (h : Heap)
    (cs : List NodeId) (h2 : Heap) (ownE : Option Err) (h3 : Heap)
    (rs : List (Option Err))
    (hflag : (h.nodes n).isUnsubscribed = false)
    (hsubs : (h.nodes n).subs = some cs)
    (hOwn : ownStep (unsubscribe fuel) (h.nodes n).unsub (detach h n) = some (h2, ownE))
    (hKids : childResults (unsubscribe fuel) cs h2 = some (h3, rs))
    (hOwnFlat : ownE.all (fun e => !e.isAgg) = true)
    (hKidsFlat : rs.all (fun r => r.all Err.flat) = true) :
    ∀ h' res, unsubscribe (fuel + 1) n h = some (h', res) →
      res.all Err.flat = true := by
  intro h' res H
  rw [unsubscribe_unfold_children fuel n h cs hflag hsubs, hOwn] at H
  dsimp only [Option.bind] at H
  rw [hKids] at H
  dsimp only [Option.map] at H
  have hres : res = if ownE.isSome || rs.any Option.isSome
      then some (Err.unsub (ownE.toList ++ (rs.map flattenChildErr).flatten))
      else none :=
    (congrArg Prod.snd (Option.some.inj H)).symm
  subst hres
  by_cases hcond : (ownE.isSome || rs.any Option.isSome) = true
  · rw [if_pos hcond]
    show Err.flat (Err.unsub (ownE.toList ++ (rs.map flattenChildErr).flatten)) = true
    simp only [Err.flat, List.all_append, Bool.and_eq_true]
    constructor
    · cases ownE with
      | none => rfl
      | some e => simpa using hOwnFlat
    · rw [List.all_eq_true]
      intro e he
      rw [List.mem_flatten] at he
      obtain ⟨l0, hl0, hel0⟩ := he
      rw [List.mem_map] at hl0
      obtain ⟨r0, hr0, rfl⟩ := hl0
      have hr0flat : r0.all Err.flat = true := by
        rw [List.all_eq_true] at hKidsFlat
        exact hKidsFlat r0 hr0
      cases r0 with
      | none => exact absurd hel0 (by simp [flattenChildErr])
      | some e0 =>
        cases e0 with
        | basic m =>
          simp only [flattenChildErr, List.mem_singleton] at hel0
          subst hel0
          rfl
        | unsub inner =>
          simp only [flattenChildErr] at hel0
          have hfi : Err.flat (.unsub inner) = true := by simpa using hr0flat
          simp only [Err.flat, List.all_eq_true] at hfi
          exact hfi e hel0
  · rw [if_neg hcond]
    rfl

/-- Heap for the C3 witness: node 1 throws a plain error and has child 2,
whose two grandchildren 3 and 4 each throw a plain error, so child 2 reports
a flat aggregate of two errors. -/
def w3Heap : Heap :=
  { nodes := fun j =>
      if j = 1 then
        { isUnsubscribed := false, unsub := some (.throws (.basic 1)), subs := some [2] }
      else if j = 2 then { isUnsubscribed := false, unsub := none, subs := some [3, 4] }
      else if j = 3 then
        { isUnsubscribed := false, unsub := some (.throws (.basic 2)), subs := none }
      else if j = 4 then
        { isUnsubscribed := false, unsub := some (.throws (.basic 3)), subs := none }
      else { isUnsubscribed := true, unsub := none, subs := none },
    next := 5 }

/-- Heap reached after node 1's own teardown step on `w3Heap`. -/
def w3h2 : Heap := detach w3Heap 1

/-- Heap reached after additionally cancelling child 2 and its children. -/
def w3h3 : Heap := detach (detach (detach w3h2 2) 3) 4

/-- C3 witness: on `w3Heap` — own failure a plain error, child 2 reporting a
flat aggregate of two errors — the failure reported by `unsubscribe` is flat. -/
theorem C3_witness :
    Option.all Err.flat (some (Err.unsub [.basic 1, .basic 2, .basic 3])) = true :=
  C3_flatten_one_level 2 1 w3Heap [2] w3h2 (some (.basic 1)) w3h3
    [some (.unsub [.basic 2, .basic 3])] rfl rfl rfl rfl rfl rfl
    w3h3 (some (.unsub [.basic 1, .basic 2, .basic 3])) rfl

/-- Modelled from the spec: the `Observer` interface consumed by
`ArrayObservable.subscriber` is imported from files that are not part of the
two provided sources; per the spec the producer is purely a consumer of the
observer's cancelled/disposed flag and of its notification callbacks.  The
observer is therefore abstract: a state type `σ` with a `disposed` flag read
by the loop guard, a `next` transition receiving one emitted element (and
free to flip `disposed`, modelling re-entrant disposal), and a `ret`
transition modelling `observer.return()`. -/
structure ObserverM (σ α : Type) where
  disposed : σ → Bool
  next : σ → α → σ
  ret : σ → σ

/-- The `for` loop of `ArrayObservable.subscriber`: before each element the
guard `i < len && !observer.disposed` is re-checked; while it passes,
`observer.next(array[i])` runs.  Returns the final observer state and the
emitted elements in index order. -/
def emitLoop {σ α : Type} (ob : ObserverM σ α) : List α → σ → σ × List α
  | [], s => (s, [])
  | a :: rest, s =>
    if ob.disposed s then (s, [])
    else
      let p := emitLoop ob rest (ob.next s a)
      (p.1, a :: p.2)

/-- `ArrayObservable.subscriber`: loop over the backing array when
`Array.isArray` holds (`none` models a non-array value, skipping the loop),
then unconditionally call `observer.return()`. -/
def subscriberRun {σ α : Type} (ob : ObserverM σ α) (arr : Option (List α))
    (s : σ) : σ × List α :=
  match arr with
  | some l => ((emitLoop ob l s).1, (emitLoop ob l s).2) |>
      (fun p => (ob.ret p.1, p.2))
  | none => (ob.ret s, [])

/-- The emit loop emits exactly the first `k` elements for some `k`: each was
emitted from a non-disposed state, the loop stops exactly when `disposed`
first holds (or the array ends), and the final state is the fold of `next`
over the emitted elements. -/
theorem emitLoop_spec {σ α : Type} (ob : ObserverM σ α) :
    ∀ (l : List α) (s : σ), ∃ k, k ≤ l.length ∧
      emitLoop ob l s = ((l.take k).foldl ob.next s, l.take k) ∧
      (∀ j < k, ob.disposed ((l.take j).foldl ob.next s) = false) ∧
      (k < l.length → ob.disposed ((l.take k).foldl ob.next s) = true) := by
  intro l
  induction l with
  | nil =>
    intro s
    exact ⟨0, Nat.le_refl 0, rfl,
      fun j hj => absurd hj (by omega), fun hlt => absurd hlt (by simp)⟩
  | cons a rest ih =>
    intro s
    by_cases hd : ob.disposed s = true
    · refine ⟨0, by simp, ?_, fun j hj => absurd hj (by omega), fun _ => ?_⟩
      · simp [emitLoop, hd]
      · simpa using hd
    · have hd' : ob.disposed s = false := by simpa using hd
      obtain ⟨k, hk, heq, hnd, hstop⟩ := ih (ob.next s a)
      refine ⟨k + 1, by simpa using Nat.succ_le_succ hk, ?_, ?_, ?_⟩
      · simp only [emitLoop, hd', Bool.false_eq_true, if_false]
        rw [heq]
        simp [List.take_succ_cons, List.foldl_cons]
      · intro j hj
        cases j with
        | zero => simpa using hd'
        | succ j0 =>
          have := hnd j0 (by omega)
          simpa [List.take_succ_cons, List.foldl_cons] using this
      · intro hlt
        have := hstop (by simpa using Nat.lt_of_succ_lt_succ hlt)
        simpa [List.take_succ_cons, List.foldl_cons] using this

/-- C10: for every backing array and observer, the subscriber emits a prefix
of the array in index order — each element emitted while `disposed` is false,
emission stopping as soon as `disposed` becomes true (or the array ends) —
and afterwards signals normal completion by applying `observer.return()` to
the final state. -/
theorem C10_subscriber_emits_while_live {σ α : Type} (ob : ObserverM σ α)
    (l : List α) (s : σ) :
    ∃ k, k ≤ l.length ∧
      subscriberRun ob (some l) s
        = (ob.ret ((l.take k).foldl ob.next s), l.take k) ∧
      (∀ j < k, ob.disposed ((l.take j).foldl ob.next s) = false) ∧
      (k < l.length → ob.disposed ((l.take k).foldl ob.next s) = true) := by
  obtain ⟨k, hk, heq, hnd, hstop⟩ := emitLoop_spec ob l s
  refine ⟨k, hk, ?_, hnd, hstop⟩
  simp only [subscriberRun, heq]
